import Mathlib

/-!
Shallow embedding of the ingredient-safety resolution pipeline
(the analyzer module of this repository: curated ingredient database,
string-similarity fuzzy lookup, heuristic regex classifier, remote
lookup adapter, and the analyzeIngredients entry point), together with
theorems settling the frozen claims about it.

JavaScript-specific semantics are modelled explicitly:
truthiness of strings and numbers (empty string and 0 are falsy, and
null/undefined are modelled as Option.none), the null-to-0 coercion in
relational comparisons, and floating point similarity scores are
modelled as exact rationals (all similarity values and the 0.8
threshold are ratios of small integers, far apart relative to double
rounding error, so the comparisons agree with the source's doubles).
-/

set_option maxRecDepth 100000

namespace SafeScan

/-! ## Basic JS string helpers -/

/-- Model of the JS String.prototype.toLowerCase for the ASCII data
appearing in this module (character-wise lowering). -/
def toLowerStr (s : String) : String :=
  ⟨s.data.map Char.toLower⟩

/-- Model of JS String.prototype.trim: strip leading and trailing
whitespace characters. -/
def jsTrim (s : String) : String :=
  ⟨((s.data.dropWhile Char.isWhitespace).reverse.dropWhile Char.isWhitespace).reverse⟩

/-- Containment of one character list in another (substring test),
used to model the source's case-insensitive literal regex tests and
String.prototype.includes. -/
def containsSub (pat : List Char) : List Char → Bool
  | [] => pat.isEmpty
  | c :: t => pat.isPrefixOf (c :: t) || containsSub pat t

/-- Case-insensitive substring test: model of testing a lowercase
literal pattern with the regex i flag, or of lowerIngredient.includes(keyword). -/
def containsCI (pat : String) (s : String) : Bool :=
  containsSub pat.data (toLowerStr s).data

/-- Word characters in the sense of the JS regex metacharacter for
word boundaries (ASCII letters, digits, underscore). -/
def isWordChar (c : Char) : Bool :=
  c.isAlphanum || c = '_'

/-- Helper scanning for an occurrence of kw in l that sits between
word boundaries; prevIsWord records whether the character immediately
before the current position is a word character. -/
def wordMatchAux (kw : List Char) : List Char → Bool → Bool
  | [], prevIsWord =>
      !prevIsWord && kw.isEmpty
  | c :: t, prevIsWord =>
      (!prevIsWord && kw.isPrefixOf (c :: t) &&
        (match (c :: t).drop kw.length with
         | [] => true
         | d :: _ => !isWordChar d))
      || wordMatchAux kw t (isWordChar c)

/-- Case-insensitive whole-word test: model of a JS regex of the shape
word-boundary (kw1|kw2|...) word-boundary with the i flag, for one
lowercase keyword. -/
def testWord (kw : String) (s : String) : Bool :=
  wordMatchAux kw.data (toLowerStr s).data false

/-- Tests a list of alternative keywords (the regex alternation). -/
def testWordAny (kws : List String) (s : String) : Bool :=
  kws.any (fun kw => testWord kw s)

/-- Join a list of strings with a comma and a space: model of
Array.prototype.join applied with a comma separator. -/
def joinComma (l : List String) : String :=
  String.intercalate ", " l

/-- JS truthy-or on a string already known to be defined:
s or-else d, where the empty string is falsy. -/
def jsOrStr (s d : String) : String :=
  if s = "" then d else s

/-- JS truthy-or on a possibly null/undefined string. -/
def jsOrStrO (o : Option String) (d : String) : String :=
  match o with
  | some s => jsOrStr s d
  | none => d

/-- JS truthy-or on a possibly null/undefined number (0 is falsy). -/
def jsOrNatO (o : Option Nat) (d : Nat) : Nat :=
  match o with
  | some n => if n = 0 then d else n
  | none => d

/-! ## Levenshtein distance

The source's editDistance builds the classic dynamic-programming
matrix row by row (rows indexed by characters of the second string,
columns by characters of the first). We embed that computation
directly (levRowAux, levStep, editDistance) and separately define the
textbook recursive Levenshtein distance (levenshtein) as the
reference the claims speak about; a bridge theorem proves the two
agree. -/

/-- Classic unit-cost Levenshtein edit distance between two character
lists (reference definition for the claims). -/
def levenshtein : List Char → List Char → Nat
  | [], ys => ys.length
  | x :: xs, [] => (x :: xs).length
  | a :: xs, b :: ys =>
      min (min (levenshtein xs (b :: ys) + 1) (levenshtein (a :: xs) ys + 1))
        (levenshtein xs ys + (if a = b then 0 else 1))
termination_by xs ys => xs.length + ys.length
decreasing_by all_goals (simp only [List.length_cons]; omega)

/-- Inner loop of the source's editDistance: given the previous DP row
(matrix row j-1) walked in lockstep with the remaining characters of
str1, and cur = the entry just computed in row j, produce the rest of
row j for character b of str2. -/
def levRowAux (b : Char) : List Char → List Nat → Nat → List Nat
  | a :: s1, pPrev :: pCur :: prest, cur =>
      min (min (cur + 1) (pCur + 1)) (pPrev + (if a = b then 0 else 1)) ::
        levRowAux b s1 (pCur :: prest)
          (min (min (cur + 1) (pCur + 1)) (pPrev + (if a = b then 0 else 1)))
  | _, _, _ => []

/-- One iteration of the source's outer loop: from row j-1 of the
matrix build row j for character b of str2 (the leading entry is
matrix row j column 0, which equals j). -/
def levStep (s1 : List Char) (prev : List Nat) (b : Char) : List Nat :=
  (prev.headD 0 + 1) :: levRowAux b s1 prev (prev.headD 0 + 1)

/-- The source's editDistance: fill the DP matrix row by row starting
from the row 0 .. str1.length and read off the bottom-right entry. -/
def editDistance (str1 str2 : String) : Nat :=
  (str2.data.foldl (levStep str1.data) (List.range (str1.length + 1))).getLastD 0

/-- The source's calculateStringSimilarity: order the operands by
length, special-case two empty strings, otherwise return
(longerLength - editDistance) / longerLength as an exact rational. -/
def calculateStringSimilarity (str1 str2 : String) : ℚ :=
  let longer := if str1.length > str2.length then str1 else str2
  let shorter := if str1.length > str2.length then str2 else str1
  if longer.length = 0 then 1
  else ((longer.length : ℚ) - (editDistance longer shorter : ℚ)) / (longer.length : ℚ)

/-! ### Levenshtein lemmas -/

theorem levenshtein_nil_left (ys : List Char) : levenshtein [] ys = ys.length := by
  simp [levenshtein]

theorem levenshtein_nil_right (xs : List Char) : levenshtein xs [] = xs.length := by
  cases xs <;> simp [levenshtein]

theorem levenshtein_cons_cons (a b : Char) (xs ys : List Char) :
    levenshtein (a :: xs) (b :: ys) =
      min (min (levenshtein xs (b :: ys) + 1) (levenshtein (a :: xs) ys + 1))
        (levenshtein xs ys + (if a = b then 0 else 1)) := by
  simp [levenshtein]

set_option maxHeartbeats 1000000 in
/-- Appending recurrence for the Levenshtein distance: the same
three-way minimum holds when the new characters are appended at the
end instead of consed at the front. This is what justifies the
prefix-indexed DP matrix. -/
theorem levenshtein_snoc :
    ∀ (n : Nat) (xs ys : List Char), xs.length + ys.length ≤ n → ∀ (a b : Char),
      levenshtein (xs ++ [a]) (ys ++ [b]) =
        min (min (levenshtein xs (ys ++ [b]) + 1) (levenshtein (xs ++ [a]) ys + 1))
          (levenshtein xs ys + (if a = b then 0 else 1)) := by
  intro n
  induction n with
  | zero =>
      intro xs ys h a b
      have hx : xs = [] := by
        cases xs with
        | nil => rfl
        | cons _ _ => simp at h
      have hy : ys = [] := by
        cases ys with
        | nil => rfl
        | cons _ _ => simp at h
      subst hx; subst hy
      simp only [List.nil_append]
      rw [levenshtein_cons_cons a b [] []]
  | succ n ih =>
      intro xs ys h a b
      cases xs with
      | nil =>
          cases ys with
          | nil =>
              simp only [List.nil_append]
              rw [levenshtein_cons_cons a b [] []]
          | cons y ys' =>
              have h1 : ([] : List Char).length + ys'.length ≤ n := by
                simp at h ⊢; omega
              have IH := ih [] ys' h1 a b
              simp only [List.nil_append, List.cons_append] at IH ⊢
              rw [levenshtein_cons_cons a y [] (ys' ++ [b]),
                levenshtein_cons_cons a y [] ys', IH]
              simp only [levenshtein_nil_left, levenshtein_nil_right,
                List.length_append, List.length_cons, List.length_nil]
              split_ifs <;> omega
      | cons x xs' =>
          cases ys with
          | nil =>
              have h1 : xs'.length + ([] : List Char).length ≤ n := by
                simp at h ⊢; omega
              have IH := ih xs' [] h1 a b
              simp only [List.nil_append, List.cons_append] at IH ⊢
              rw [levenshtein_cons_cons x b (xs' ++ [a]) [],
                levenshtein_cons_cons x b xs' [], IH]
              simp only [levenshtein_nil_left, levenshtein_nil_right,
                List.length_append, List.length_cons, List.length_nil]
              split_ifs <;> omega
          | cons y ys' =>
              have h1 : xs'.length + (y :: ys').length ≤ n := by
                simp at h ⊢; omega
              have h2 : (x :: xs').length + ys'.length ≤ n := by
                simp at h ⊢; omega
              have h3 : xs'.length + ys'.length ≤ n := by
                simp at h ⊢; omega
              have IH1 := ih xs' (y :: ys') h1 a b
              have IH2 := ih (x :: xs') ys' h2 a b
              have IH3 := ih xs' ys' h3 a b
              simp only [List.nil_append, List.cons_append] at IH1 IH2 IH3 ⊢
              rw [levenshtein_cons_cons x y (xs' ++ [a]) (ys' ++ [b]),
                levenshtein_cons_cons x y xs' (ys' ++ [b]),
                levenshtein_cons_cons x y (xs' ++ [a]) ys',
                levenshtein_cons_cons x y xs' ys', IH1, IH2, IH3]
              split_ifs <;>
                (simp only [← min_add_add_right]
                 apply le_antisymm <;> (simp only [le_min_iff, min_le_iff]; omega))

theorem levenshtein_comm :
    ∀ (n : Nat) (xs ys : List Char), xs.length + ys.length ≤ n →
      levenshtein xs ys = levenshtein ys xs := by
  intro n
  induction n with
  | zero =>
      intro xs ys h
      have hx : xs = [] := by
        cases xs with
        | nil => rfl
        | cons _ _ => simp at h
      have hy : ys = [] := by
        cases ys with
        | nil => rfl
        | cons _ _ => simp at h
      subst hx; subst hy; simp [levenshtein_nil_left]
  | succ n ih =>
      intro xs ys h
      cases xs with
      | nil => simp [levenshtein_nil_left, levenshtein_nil_right]
      | cons x xs' =>
          cases ys with
          | nil => simp [levenshtein_nil_left, levenshtein_nil_right]
          | cons y ys' =>
              have h1 : xs'.length + (y :: ys').length ≤ n := by
                simp at h ⊢; omega
              have h2 : (x :: xs').length + ys'.length ≤ n := by
                simp at h ⊢; omega
              have h3 : xs'.length + ys'.length ≤ n := by
                simp at h ⊢; omega
              have IH1 := ih xs' (y :: ys') h1
              have IH2 := ih (x :: xs') ys' h2
              have IH3 := ih xs' ys' h3
              have hcc : (if y = x then (0 : Nat) else 1) = (if x = y then 0 else 1) := by
                by_cases hxy : x = y
                · simp [hxy]
                · have hyx : ¬ y = x := fun hc => hxy hc.symm
                  simp [hxy, hyx]
              simp only [levenshtein_cons_cons, IH1, IH2, IH3, hcc]
              omega

theorem levenshtein_self : ∀ (xs : List Char), levenshtein xs xs = 0 := by
  intro xs
  induction xs with
  | nil => simp [levenshtein_nil_left]
  | cons a t iht =>
      rw [levenshtein_cons_cons, iht]
      simp

theorem levenshtein_snoc_eq (xs ys : List Char) (a b : Char) :
    levenshtein (xs ++ [a]) (ys ++ [b]) =
      min (min (levenshtein xs (ys ++ [b]) + 1) (levenshtein (xs ++ [a]) ys + 1))
        (levenshtein xs ys + (if a = b then 0 else 1)) :=
  levenshtein_snoc (xs.length + ys.length) xs ys le_rfl a b

theorem levenshtein_comm_eq (xs ys : List Char) :
    levenshtein xs ys = levenshtein ys xs :=
  levenshtein_comm (xs.length + ys.length) xs ys le_rfl

/-! ### The DP rows compute Levenshtein distances of prefixes -/

/-- Specification of a DP row: the distances from each non-empty
prefix of the remaining first string (relative to the already-consumed
prefix p) to the processed prefix t of the second string. -/
def rowSpec (t : List Char) : List Char → List Char → List Nat
  | _, [] => []
  | p, a :: s1 => levenshtein (p ++ [a]) t :: rowSpec t (p ++ [a]) s1

theorem levRowAux_rowSpec (b : Char) (t : List Char) :
    ∀ (s1 p : List Char),
      levRowAux b s1 (levenshtein p t :: rowSpec t p s1) (levenshtein p (t ++ [b]))
        = rowSpec (t ++ [b]) p s1 := by
  intro s1
  induction s1 with
  | nil => intro p; simp [rowSpec, levRowAux]
  | cons a s1 ihs =>
      intro p
      rw [show rowSpec t p (a :: s1) =
            levenshtein (p ++ [a]) t :: rowSpec t (p ++ [a]) s1 from rfl]
      rw [show rowSpec (t ++ [b]) p (a :: s1) =
            levenshtein (p ++ [a]) (t ++ [b]) :: rowSpec (t ++ [b]) (p ++ [a]) s1 from rfl]
      rw [show levRowAux b (a :: s1)
            (levenshtein p t :: levenshtein (p ++ [a]) t :: rowSpec t (p ++ [a]) s1)
            (levenshtein p (t ++ [b])) =
          (min (min (levenshtein p (t ++ [b]) + 1) (levenshtein (p ++ [a]) t + 1))
              (levenshtein p t + (if a = b then 0 else 1)) ::
            levRowAux b s1 (levenshtein (p ++ [a]) t :: rowSpec t (p ++ [a]) s1)
              (min (min (levenshtein p (t ++ [b]) + 1) (levenshtein (p ++ [a]) t + 1))
                (levenshtein p t + (if a = b then 0 else 1)))) from rfl]
      rw [show min (min (levenshtein p (t ++ [b]) + 1) (levenshtein (p ++ [a]) t + 1))
            (levenshtein p t + (if a = b then 0 else 1))
          = levenshtein (p ++ [a]) (t ++ [b]) from (levenshtein_snoc_eq p t a b).symm]
      rw [ihs (p ++ [a])]

theorem levStep_rowSpec (s1 t : List Char) (b : Char) :
    levStep s1 (levenshtein [] t :: rowSpec t [] s1) b
      = levenshtein [] (t ++ [b]) :: rowSpec (t ++ [b]) [] s1 := by
  have hlen : levenshtein [] t + 1 = levenshtein [] (t ++ [b]) := by
    simp [levenshtein_nil_left]
  rw [show levStep s1 (levenshtein [] t :: rowSpec t [] s1) b
        = (levenshtein [] t + 1) ::
            levRowAux b s1 (levenshtein [] t :: rowSpec t [] s1) (levenshtein [] t + 1)
      from rfl]
  rw [hlen, levRowAux_rowSpec b t s1 []]

theorem foldl_levStep (s1 : List Char) :
    ∀ (rest t : List Char),
      rest.foldl (levStep s1) (levenshtein [] t :: rowSpec t [] s1)
        = levenshtein [] (t ++ rest) :: rowSpec (t ++ rest) [] s1 := by
  intro rest
  induction rest with
  | nil => intro t; simp
  | cons b rest ihr =>
      intro t
      rw [List.foldl_cons, levStep_rowSpec s1 t b, ihr (t ++ [b])]
      simp [List.append_assoc]

theorem rowSpec_nil_snd (s1 : List Char) :
    ∀ p, rowSpec [] p s1 = List.range' (p.length + 1) s1.length := by
  induction s1 with
  | nil => intro p; simp [rowSpec, List.range']
  | cons a s1 ihs =>
      intro p
      rw [show rowSpec [] p (a :: s1) =
            levenshtein (p ++ [a]) [] :: rowSpec [] (p ++ [a]) s1 from rfl]
      rw [ihs (p ++ [a]), levenshtein_nil_right]
      simp [List.range']

theorem range_eq_initial_row (s1 : List Char) :
    List.range (s1.length + 1) = levenshtein [] [] :: rowSpec [] [] s1 := by
  rw [rowSpec_nil_snd s1 [], levenshtein_nil_left, List.range_eq_range']
  simp [List.range']

theorem rowSpec_getLastD (t : List Char) :
    ∀ (s1 p : List Char) (d : Nat),
      (levenshtein p t :: rowSpec t p s1).getLastD d = levenshtein (p ++ s1) t := by
  intro s1
  induction s1 with
  | nil => intro p d; simp [rowSpec]
  | cons a s1 ihs =>
      intro p d
      rw [show rowSpec t p (a :: s1) =
            levenshtein (p ++ [a]) t :: rowSpec t (p ++ [a]) s1 from rfl]
      rw [List.getLastD_cons, ihs (p ++ [a]) (levenshtein p t)]
      simp

/-- Bridge theorem: the source's row-by-row DP computes exactly the
classic Levenshtein distance of the two strings. -/
theorem editDistance_eq_levenshtein (s1 s2 : String) :
    editDistance s1 s2 = levenshtein s1.data s2.data := by
  rw [show editDistance s1 s2 =
        (s2.data.foldl (levStep s1.data) (List.range (s1.data.length + 1))).getLastD 0
      from rfl]
  rw [range_eq_initial_row s1.data, foldl_levStep s1.data s2.data [],
    List.nil_append, rowSpec_getLastD s2.data s1.data [] 0, List.nil_append]

theorem levenshtein_le_max :
    ∀ (n : Nat) (xs ys : List Char), xs.length + ys.length ≤ n →
      levenshtein xs ys ≤ max xs.length ys.length := by
  intro n
  induction n with
  | zero =>
      intro xs ys h
      have hx : xs = [] := by
        cases xs with
        | nil => rfl
        | cons _ _ => simp at h
      have hy : ys = [] := by
        cases ys with
        | nil => rfl
        | cons _ _ => simp at h
      subst hx; subst hy; simp [levenshtein_nil_left]
  | succ n ih =>
      intro xs ys h
      cases xs with
      | nil => simp [levenshtein_nil_left]
      | cons x xs' =>
          cases ys with
          | nil => simp [levenshtein_nil_right]
          | cons y ys' =>
              have h3 : xs'.length + ys'.length ≤ n := by
                simp at h ⊢; omega
              have IH3 := ih xs' ys' h3
              rw [levenshtein_cons_cons]
              have hmin : min (min (levenshtein xs' (y :: ys') + 1)
                  (levenshtein (x :: xs') ys' + 1))
                  (levenshtein xs' ys' + (if x = y then 0 else 1)) ≤
                  levenshtein xs' ys' + (if x = y then 0 else 1) :=
                Nat.min_le_right _ _
              have hcost : (if x = y then 0 else 1) ≤ 1 := by
                by_cases hxy : x = y <;> simp [hxy]
              simp only [List.length_cons]
              omega

theorem levenshtein_le_max_eq (xs ys : List Char) :
    levenshtein xs ys ≤ max xs.length ys.length :=
  levenshtein_le_max (xs.length + ys.length) xs ys le_rfl

theorem string_length_eq_zero_iff (s : String) : s.length = 0 ↔ s = "" := by
  cases s with
  | mk data =>
      constructor
      · intro h
        have hd : data = [] := List.length_eq_zero.mp h
        simp [hd]
      · intro h
        have hd : data = ([] : List Char) := congrArg String.data h
        simp [String.length, hd]

/-- On at least one non-empty operand, the source's similarity equals
the normalized Levenshtein similarity of the claims. -/
theorem calculateStringSimilarity_formula (a b : String) (h : a ≠ "" ∨ b ≠ "") :
    calculateStringSimilarity a b =
      (((max a.length b.length : Nat) : ℚ) - (levenshtein a.data b.data : ℚ))
        / ((max a.length b.length : Nat) : ℚ) := by
  by_cases hl : a.length > b.length
  · have hmax : max a.length b.length = a.length := Nat.max_eq_left (Nat.le_of_lt hl)
    have hz : ¬ a.length = 0 := by omega
    rw [show calculateStringSimilarity a b =
          (if a.length = 0 then (1 : ℚ)
           else ((a.length : ℚ) - (editDistance a b : ℚ)) / (a.length : ℚ)) from by
        simp [calculateStringSimilarity, if_pos hl]]
    rw [if_neg hz, editDistance_eq_levenshtein, hmax]
  · have hba : a.length ≤ b.length := Nat.le_of_not_lt hl
    have hmax : max a.length b.length = b.length := Nat.max_eq_right hba
    have hz : ¬ b.length = 0 := by
      intro hb0
      rcases h with ha | hb
      · exact ha ((string_length_eq_zero_iff a).mp (by omega))
      · exact hb ((string_length_eq_zero_iff b).mp hb0)
    rw [show calculateStringSimilarity a b =
          (if b.length = 0 then (1 : ℚ)
           else ((b.length : ℚ) - (editDistance b a : ℚ)) / (b.length : ℚ)) from by
        simp [calculateStringSimilarity, if_neg hl]]
    rw [if_neg hz, editDistance_eq_levenshtein, levenshtein_comm_eq b.data a.data, hmax]

theorem calculateStringSimilarity_empty :
    calculateStringSimilarity "" "" = 1 := by
  simp [calculateStringSimilarity]

theorem calculateStringSimilarity_bounds (a b : String) :
    0 ≤ calculateStringSimilarity a b ∧ calculateStringSimilarity a b ≤ 1 := by
  by_cases hab : a = "" ∧ b = ""
  · rw [hab.1, hab.2, calculateStringSimilarity_empty]
    constructor <;> norm_num
  · have h : a ≠ "" ∨ b ≠ "" := by tauto
    rw [calculateStringSimilarity_formula a b h]
    have hd : levenshtein a.data b.data ≤ max a.length b.length :=
      levenshtein_le_max_eq a.data b.data
    have hLpos : 0 < max a.length b.length := by
      rcases h with ha | hb
      · have : a.length ≠ 0 := fun hz => ha ((string_length_eq_zero_iff a).mp hz)
        omega
      · have : b.length ≠ 0 := fun hz => hb ((string_length_eq_zero_iff b).mp hz)
        omega
    have hLQ : (0 : ℚ) < ((max a.length b.length : Nat) : ℚ) := by exact_mod_cast hLpos
    have hdQ : (levenshtein a.data b.data : ℚ) ≤ ((max a.length b.length : Nat) : ℚ) := by
      exact_mod_cast hd
    constructor
    · apply div_nonneg _ (le_of_lt hLQ)
      linarith
    · rw [div_le_one hLQ]
      have : (0 : ℚ) ≤ (levenshtein a.data b.data : ℚ) := by positivity
      linarith

theorem calculateStringSimilarity_self (x : String) :
    calculateStringSimilarity x x = 1 := by
  by_cases hx : x = ""
  · rw [hx]; exact calculateStringSimilarity_empty
  · rw [calculateStringSimilarity_formula x x (Or.inl hx), levenshtein_self]
    have hLpos : 0 < x.length := by
      have : x.length ≠ 0 := fun hz => hx ((string_length_eq_zero_iff x).mp hz)
      omega
    have hLQ : ((x.length : Nat) : ℚ) ≠ 0 := by
      exact_mod_cast Nat.pos_iff_ne_zero.mp hLpos
    rw [Nat.max_self]
    push_cast
    rw [sub_zero]
    exact div_self hLQ

/-! ## Curated ingredient database -/

/-- Shape of one curated database entry (matching the record type of
the source's static ingredient table; optional fields default to
absent). -/
structure DBEntry where
  baseScore : Nat
  category : String
  concerns : List String
  benefits : List String
  scientificName : Option String := none
  restrictions : Option (List String) := none
  naturalAlternatives : Option (List String) := none
  researchLinks : Option (List String) := none
deriving DecidableEq

/-- The source's static ingredientDatabase, in declaration order
(string-keyed object literals iterate in insertion order). -/
def ingredientDatabase : List (String × DBEntry) := [
  ("paraben",
    { baseScore := 8
    , category := "Preservative"
    , concerns := ["Endocrine disruption", "Reproductive toxicity",
        "Potential carcinogenic effects", "Skin sensitization"]
    , benefits := ["Effective preservation", "Extends product shelf life"]
    , restrictions := some ["Restricted in EU", "Limited use in Japan"]
    , naturalAlternatives := some ["Grapefruit seed extract", "Rosemary extract", "Neem oil"]
    , researchLinks := some ["https://pubmed.ncbi.nlm.nih.gov/parabens-safety",
        "https://www.sciencedirect.com/topics/parabens-toxicology"] }),
  ("phenoxyethanol",
    { baseScore := 4
    , category := "Preservative"
    , concerns := ["Potential skin irritation", "Allergic reactions in sensitive individuals"]
    , benefits := ["Broad spectrum preservation", "Stable in formulations"]
    , naturalAlternatives := some ["Leuconostoc ferment filtrate", "Lactobacillus ferment"] }),
  ("sodium benzoate",
    { baseScore := 3
    , category := "Preservative"
    , concerns := ["Potential irritation at high concentrations"]
    , benefits := ["Natural origin option", "Effective against mold"]
    , scientificName := some "Sodium benzoate" }),
  ("sodium lauryl sulfate",
    { baseScore := 6
    , category := "Surfactant"
    , concerns := ["Skin irritation", "Barrier disruption", "Environmental concerns",
        "Potential contamination with 1,4-dioxane"]
    , benefits := ["Effective cleansing", "Good foaming"]
    , naturalAlternatives := some ["Decyl glucoside", "Coco glucoside"] }),
  ("cocamidopropyl betaine",
    { baseScore := 3
    , category := "Surfactant"
    , concerns := ["Mild skin sensitization"]
    , benefits := ["Gentle cleansing", "Reduces irritation from other surfactants"] }),
  ("glycerin",
    { baseScore := 1
    , category := "Emollient"
    , concerns := []
    , benefits := ["Hydration", "Skin barrier support", "Natural moisture factor",
        "Improves product texture"]
    , scientificName := some "Glycerol" }),
  ("hyaluronic acid",
    { baseScore := 1
    , category := "Humectant"
    , concerns := []
    , benefits := ["Deep hydration", "Anti-aging properties", "Supports skin barrier",
        "Improves wound healing"]
    , scientificName := some "Sodium Hyaluronate" }),
  ("vitamin e",
    { baseScore := 1
    , category := "Antioxidant"
    , concerns := []
    , benefits := ["Antioxidant protection", "Skin conditioning", "Anti-inflammatory",
        "Helps preserve other ingredients"]
    , scientificName := some "Tocopherol" }),
  ("vitamin c",
    { baseScore := 1
    , category := "Antioxidant"
    , concerns := ["Stability issues"]
    , benefits := ["Brightening", "Collagen support", "Photoprotection", "Anti-aging"]
    , scientificName := some "Ascorbic Acid" }),
  ("titanium dioxide",
    { baseScore := 3
    , category := "UV Filter"
    , concerns := ["Potential inhalation risk (powder form)", "Nanoparticle concerns"]
    , benefits := ["Broad spectrum protection", "Stable sun protection", "Non-irritating"]
    , scientificName := some "TiO2" }),
  ("zinc oxide",
    { baseScore := 2
    , category := "UV Filter"
    , concerns := ["White cast on skin"]
    , benefits := ["Natural sun protection", "Skin soothing", "Anti-inflammatory"]
    , scientificName := some "ZnO" })]

/-- Runtime result of the source's curated lookup. The membership test
is the JS in operator on a plain object literal, and in consults the
prototype chain: beyond the 11 own keys it is also true for every
Object-prototype property name, and the subsequent indexing then
returns the inherited value (the Object constructor for the key
constructor, Object.prototype for the key __proto__). Both inherited
values are truthy objects that carry none of the entry fields: each
field reads as undefined, and .concerns.join raises a TypeError. They
behave identically at every place the adapter and the pipeline look,
so one constructor models them. -/
inductive DBMatch where
  | entry : DBEntry → DBMatch
  | protoObject : DBMatch
  | null : DBMatch
deriving DecidableEq

/-- The Object-prototype property names consisting solely of lowercase
characters. The lookup lowercases its input first, so these are
exactly the prototype names it can hit (every other prototype name,
such as toString or hasOwnProperty, contains an uppercase letter and
cannot equal a lowercased string). -/
def protoChainKeys : List String := ["constructor", "__proto__"]

/-- The source's findIngredientInDatabase: lowercase the input (the
source does not trim); the JS in test passes for an own key of the
static table (returning that entry) and also for a lowercase
Object-prototype property name (returning the inherited junk object);
otherwise the fuzzy scan keeps the first entry strictly improving the
best similarity seen so far subject to the strict 0.8 threshold. -/
def findIngredientInDatabase (ingredient : String) : DBMatch :=
  let normalizedInput := toLowerStr ingredient
  match ingredientDatabase.find? (fun kv => kv.1 == normalizedInput) with
  | some kv => .entry kv.2
  | none =>
      if protoChainKeys.contains normalizedInput then .protoObject
      else
        match (ingredientDatabase.foldl
            (fun acc kv =>
              if calculateStringSimilarity normalizedInput kv.1 > acc.2 ∧
                  calculateStringSimilarity normalizedInput kv.1 > (8 : ℚ) / 10
              then (some kv.2, calculateStringSimilarity normalizedInput kv.1)
              else acc)
            ((none : Option DBEntry), (0 : ℚ))).1 with
        | some e => .entry e
        | none => .null

/-! ## Heuristic classifier -/

/-- Shapes of the regex patterns occurring in the source's risk
tiers: a case-insensitive literal substring test, an anchored
case-insensitive exact match against a set of alternatives, and the
one pattern requiring a digit after a literal. -/
inductive Pat where
  | sub : String → Pat
  | exactly : List String → Pat
  | pegNum : Pat
deriving DecidableEq

/-- Matcher for the source's peg-number pattern: the literal followed
by at least one digit, anywhere in the (lowercased) string. -/
def pegNumMatch : List Char → Bool
  | [] => false
  | c :: t =>
      (("peg-".data).isPrefixOf (c :: t) &&
        (match (c :: t).drop 4 with
         | d :: _ => d.isDigit
         | [] => false))
      || pegNumMatch t

def patTest (p : Pat) (ingredient : String) : Bool :=
  match p with
  | .sub lit => containsCI lit ingredient
  | .exactly alts => alts.contains (toLowerStr ingredient)
  | .pegNum => pegNumMatch (toLowerStr ingredient).data

/-- The source's high-risk tier patterns (score 8). -/
def highRiskPatterns : List Pat :=
  [.sub "paraben", .sub "phthalate", .sub "formaldehyde", .sub "triclosan",
   .sub "bha", .sub "bht", .sub "toluene", .sub "petroleum", .sub "lead",
   .sub "mercury", .sub "hydroquinone", .sub "oxybenzone", .sub "coal tar",
   .sub "ethanolamines", .sub "dioxane", .sub "nitrosamine", .sub "polyethylene"]

/-- The source's moderate-risk tier patterns (score 5). -/
def moderateRiskPatterns : List Pat :=
  [.pegNum, .sub "phenoxyethanol", .sub "sodium lauryl sulfate",
   .sub "propylene", .sub "butylene", .sub "synthetic", .sub "fragrance",
   .sub "dmdm", .sub "diazolidinyl", .sub "quaternium", .sub "methylisothiazolinone"]

/-- The source's low-risk tier patterns (score 2). -/
def lowRiskPatterns : List Pat :=
  [.sub "water", .sub "aqua", .sub "aloe", .sub "glycerin", .sub "vitamin",
   .sub "panthenol", .sub "allantoin", .sub "zinc", .sub "titanium dioxide",
   .sub "hyaluronic", .sub "ceramide", .sub "peptide", .sub "amino acid"]

/-- The source's very-low-risk tier patterns (score 1; all anchored). -/
def veryLowRiskPatterns : List Pat :=
  [.exactly ["water"], .exactly ["aloe vera"], .exactly ["glycerin"],
   .exactly ["vitamin a", "vitamin b", "vitamin c", "vitamin d", "vitamin e"],
   .exactly ["zinc oxide"], .exactly ["green tea"], .exactly ["chamomile"],
   .exactly ["calendula"], .exactly ["jojoba oil"], .exactly ["shea butter"]]

/-- The source's riskPatterns tiers, in declaration order
high, moderate, low, veryLow with scores 8, 5, 2, 1. -/
def riskPatterns : List (Nat × List Pat) :=
  [(8, highRiskPatterns), (5, moderateRiskPatterns),
   (2, lowRiskPatterns), (1, veryLowRiskPatterns)]

/-- The source's calculateDefaultScore: first tier (in declaration
order) with any matching pattern wins; 5 if no tier matches. -/
def calculateDefaultScore (ingredient : String) : Nat :=
  match riskPatterns.find? (fun tier => tier.2.any (fun p => patTest p ingredient)) with
  | some tier => tier.1
  | none => 5

/-- The source's getSafetyLevel on an arbitrary JS number operand
(modelled over the integers so the null-coerced 0 can be fed in). -/
def getSafetyLevelInt (score : Int) : String :=
  if score ≤ 2 then "Low Concern"
  else if score ≤ 6 then "Moderate Concern"
  else "High Concern"

/-- The source's getSafetyLevel on an actual number. -/
def getSafetyLevel (score : Nat) : String :=
  getSafetyLevelInt score

/-- JS coercion used by relational operators: null compares as 0.
The source passes the possibly-null result of parseScore straight
into getSafetyLevel on the structured remote path. -/
def jsNumOfNullable (o : Option Nat) : Int :=
  match o with
  | some n => n
  | none => 0

def getDefaultConcern (score : Nat) : String :=
  if score ≤ 2 then "Generally recognized as safe with extensive safety data"
  else if score ≤ 6 then "Moderate safety concerns, may require more research"
  else "High safety concerns, potential risks identified"

/-! ### Reading fields off the curated-lookup result

These helpers model the conditional expressions of the shape
dbMatch ? dbMatch.field : fallback and dbMatch?.field. The junk
prototype object is truthy (so the conditional takes its branch) but
every entry field reads as undefined on it; an undefined result is
none. -/

/-- dbMatch ? dbMatch.baseScore : fallback (undefined on the junk
object). -/
def dbBaseScoreOr (m : DBMatch) (fallback : Nat) : Option Nat :=
  match m with
  | .entry e => some e.baseScore
  | .protoObject => none
  | .null => some fallback

/-- dbMatch ? dbMatch.category : fallback (undefined on the junk
object). -/
def dbCategoryOr (m : DBMatch) (fallback : String) : Option String :=
  match m with
  | .entry e => some e.category
  | .protoObject => none
  | .null => some fallback

/-- dbMatch ? dbMatch.concerns.join : fallback. On the junk object,
.concerns is undefined and the .join access raises a TypeError that
propagates to the enclosing code. -/
def dbConcernsOr (m : DBMatch) (fallback : String) : Except String String :=
  match m with
  | .entry e => .ok (joinComma e.concerns)
  | .protoObject => .error "TypeError: cannot read join of undefined"
  | .null => .ok fallback

/-- dbMatch ? getSafetyLevel(dbMatch.baseScore) : fallback. On the
junk object getSafetyLevel receives undefined; undefined coerces to
NaN in the relational comparisons, both of which are then false, so
the result is the final else branch High Concern. -/
def dbSafetyLevelOr (m : DBMatch) (fallback : String) : String :=
  match m with
  | .entry e => getSafetyLevel e.baseScore
  | .protoObject => "High Concern"
  | .null => fallback

/-- dbMatch?.scientificName (optional chaining; undefined on the junk
object and on null). -/
def dbScientificName (m : DBMatch) : Option String :=
  match m with
  | .entry e => e.scientificName
  | _ => none

/-- dbMatch?.benefits?.join (optional chaining stops at the undefined
benefits of the junk object). -/
def dbBenefits (m : DBMatch) : Option String :=
  match m with
  | .entry e => some (joinComma e.benefits)
  | _ => none

/-- dbMatch?.restrictions?.join. -/
def dbRestrictions (m : DBMatch) : Option String :=
  match m with
  | .entry e => e.restrictions.map joinComma
  | _ => none

/-- dbMatch?.naturalAlternatives?.join. -/
def dbNaturalAlternatives (m : DBMatch) : Option String :=
  match m with
  | .entry e => e.naturalAlternatives.map joinComma
  | _ => none

/-- dbMatch?.researchLinks?.join with a newline separator. -/
def dbResearchLinks (m : DBMatch) : Option String :=
  match m with
  | .entry e => e.researchLinks.map (String.intercalate "\n")
  | _ => none

/-- JS truthy-or where both operands are possibly undefined strings
(the result itself can then be undefined, as in
functionText or-else dbMatch.category on the junk object). -/
def jsOrStrOO (a : Option String) (b : Option String) : Option String :=
  match a with
  | some s => if s = "" then b else some s
  | none => b

/-- JS truthy-or where both operands are possibly null or undefined
numbers. -/
def jsOrNatOO (a : Option Nat) (b : Option Nat) : Option Nat :=
  match a with
  | some n => if n = 0 then b else some n
  | none => b

/-- getSafetyLevel applied to a possibly-undefined JS number: an
undefined operand coerces to NaN, every comparison with NaN is false,
and the final else branch High Concern is returned. -/
def getSafetyLevelU (o : Option Nat) : String :=
  match o with
  | some n => getSafetyLevel n
  | none => "High Concern"

/-- The source's functions table (category, keyword list), in
declaration order. -/
def functionsTable : List (String × List String) := [
  ("Preservative",
    ["paraben", "phenoxyethanol", "benzoate", "sorbate", "formaldehyde",
     "methylisothiazolinone", "benzyl alcohol", "potassium sorbate",
     "sodium benzoate", "ethylhexylglycerin"]),
  ("Surfactant",
    ["lauryl", "laureth", "sodium", "cocamide", "sulfate", "betaine",
     "decyl glucoside", "coco-glucoside", "polysorbate", "taurate",
     "isethionate", "amphoacetate"]),
  ("Emollient",
    ["oil", "butter", "glycerin", "lanolin", "dimethicone", "squalane",
     "ceramide", "fatty acid", "triglyceride", "caprylic", "stearic",
     "cetyl", "cetearyl", "isopropyl myristate"]),
  ("Fragrance",
    ["fragrance", "parfum", "aroma", "essential oil", "limonene",
     "linalool", "citral", "geraniol", "citronellol", "eugenol"]),
  ("UV Filter",
    ["benzophenone", "avobenzone", "titanium dioxide", "zinc oxide",
     "octinoxate", "oxybenzone", "octocrylene", "homosalate",
     "ethylhexyl methoxycinnamate", "tinosorb"]),
  ("Antioxidant",
    ["tocopherol", "vitamin", "retinol", "ascorbic", "niacinamide",
     "flavonoid", "polyphenol", "resveratrol", "ferulic", "ubiquinone"]),
  ("Humectant",
    ["glycerin", "hyaluronic", "urea", "propylene glycol", "butylene glycol",
     "sodium pca", "sorbitol", "panthenol", "sodium lactate", "aloe"]),
  ("Emulsifier",
    ["cetyl", "stearic", "glyceryl", "polysorbate", "cetearyl",
     "peg", "sorbitan", "carbomer", "hydroxypropyl", "lecithin"]),
  ("pH Adjuster",
    ["citric acid", "lactic acid", "sodium hydroxide", "potassium hydroxide",
     "triethanolamine", "aminomethyl propanol"]),
  ("Chelating Agent",
    ["edta", "tetrasodium", "disodium", "trisodium", "etidronic acid"])]

/-- The source's getIngredientFunction: first category whose keyword
list has a member contained in the lowercased ingredient. -/
def getIngredientFunction (ingredient : String) : String :=
  match functionsTable.find? (fun fk => fk.2.any (fun kw => containsCI kw ingredient)) with
  | some fk => fk.1
  | none => "Other/Unknown"

/-- The source's uses table (common use, keyword list), in declaration
order. -/
def usesTable : List (String × List String) := [
  ("Moisturizing agent",
    ["glycerin", "oil", "butter", "hyaluronic", "dimethicone",
     "squalane", "ceramide", "fatty acid", "jojoba", "aloe",
     "sodium pca", "urea", "panthenol"]),
  ("Cleansing agent",
    ["lauryl", "laureth", "cocamide", "sulfate", "glucoside",
     "betaine", "sodium cocoyl", "decyl", "isethionate", "taurate"]),
  ("Preservative system",
    ["paraben", "phenoxyethanol", "benzoate", "formaldehyde",
     "methylisothiazolinone", "potassium sorbate", "benzyl alcohol",
     "sodium benzoate", "ethylhexylglycerin"]),
  ("Fragrance component",
    ["fragrance", "parfum", "aroma", "essential oil", "limonene",
     "linalool", "citral", "geraniol", "citronellol", "eugenol"]),
  ("Sun protection",
    ["benzophenone", "avobenzone", "titanium", "zinc oxide",
     "octinoxate", "oxybenzone", "octocrylene", "homosalate",
     "tinosorb", "uvinul"]),
  ("Antioxidant protection",
    ["tocopherol", "vitamin", "retinol", "ascorbic", "niacinamide",
     "flavonoid", "polyphenol", "resveratrol", "ferulic", "ubiquinone"]),
  ("Thickening agent",
    ["carbomer", "xanthan", "cellulose", "guar", "carrageenan",
     "acacia", "agar", "alginate", "hydroxypropyl", "hydroxyethylcellulose"]),
  ("Skin conditioning",
    ["aloe", "panthenol", "allantoin", "chamomile", "calendula",
     "green tea", "collagen", "peptide", "ceramide", "beta glucan"]),
  ("pH balancing",
    ["citric acid", "lactic acid", "sodium hydroxide", "potassium hydroxide",
     "triethanolamine", "aminomethyl propanol"]),
  ("Stabilizing agent",
    ["edta", "tetrasodium", "disodium", "trisodium", "etidronic acid",
     "sodium phytate", "sodium gluconate"])]

/-- The source's getCommonUse: first use whose keyword list has a
member contained in the lowercased ingredient. -/
def getCommonUse (ingredient : String) : String :=
  match usesTable.find? (fun uk => uk.2.any (fun kw => containsCI kw ingredient)) with
  | some uk => uk.1
  | none => "Various applications"

/-! ## Score text parsing -/

/-- Numeric value of a digit run (what parseInt does on it). -/
def digitsVal (l : List Char) : Nat :=
  l.foldl (fun acc c => acc * 10 + (c.toNat - 48)) 0

/-- First maximal run of decimal digits in the character list (the
first match of a one-or-more-digits regex). -/
def firstDigitRun : List Char → Option (List Char)
  | [] => none
  | c :: t => if c.isDigit then some (c :: t.takeWhile Char.isDigit) else firstDigitRun t

/-- Value of the first integer literal occurring in the text, if any. -/
def firstNumber (s : String) : Option Nat :=
  (firstDigitRun s.data).map digitsVal

def lowKeywords : List String := ["low", "safe", "minimal", "good"]

def moderateKeywords : List String := ["moderate", "medium", "average"]

def highKeywords : List String := ["high", "unsafe", "dangerous", "poor"]

/-- The source's parseScore: falsy (missing or empty) text gives
null; a first integer match is clamped into 1..10; otherwise the
low / moderate / high keyword regexes (whole words, case-insensitive)
give 2 / 5 / 8; otherwise null. -/
def parseScore (scoreText : Option String) : Option Nat :=
  match scoreText with
  | none => none
  | some s =>
      if s = "" then none
      else
        match firstNumber s with
        | some n => some (max 1 (min 10 n))
        | none =>
            if testWordAny lowKeywords s then some 2
            else if testWordAny moderateKeywords s then some 5
            else if testWordAny highKeywords s then some 8
            else none

/-! ## Remote lookup adapter -/

/-- One scraped product entry of the structured remote response
(fields the adapter reads; all may be absent). -/
structure ProductData where
  score : Option String := none
  concerns : Option (List String) := none
  category : Option String := none
deriving DecidableEq

/-- Everything the remote collaborator plus the HTML extraction can
feed into the adapter logic for one lookup: an exception from the
transport, JSON parsing or HTML parsing; a non-ok HTTP status; a JSON
body with neither a data nor an html field truthy; the structured
product list; HTML with no product-listing node; or HTML with a first
listing reduced to its extracted score text, concern item texts,
function text and common-use text. -/
inductive RemoteOutcome where
  | exnThrown : RemoteOutcome
  | notOk : RemoteOutcome
  | neither : RemoteOutcome
  | structured : List ProductData → RemoteOutcome
  | htmlNoListing : RemoteOutcome
  | htmlListing : String → List String → String → String → RemoteOutcome
deriving DecidableEq

/-- Which outcomes the claims classify as collaborator failures
(network or HTTP error, non-ok status, malformed JSON, HTML parse
failure). -/
def RemoteOutcome.isFailure : RemoteOutcome → Bool
  | .exnThrown => true
  | .notOk => true
  | .htmlNoListing => true
  | _ => false

/-- The partial ingredient record the adapter returns (the source's
Partial of the Ingredient interface; absent fields are none, and a
present-but-null score is modelled as the inner none). -/
structure PartialIngredient where
  ewgScore : Option Nat := none
  safetyLevel : Option String := none
  reasonForConcern : Option String := none
  function : Option String := none
  commonUse : Option String := none
  scientificName : Option String := none
  benefits : Option String := none
  restrictions : Option String := none
  naturalAlternatives : Option String := none
  researchLinks : Option String := none
deriving DecidableEq

/-- The reasonForConcern expression of the HTML-fallback branch:
concerns or-else (dbMatch ? dbMatch.concerns.join : fallback). The
join raises a TypeError on the junk prototype object, which the
adapter's try/catch then turns into a null result. -/
def htmlReason (concerns : String) (dbMatch : DBMatch) (fallback : String) :
    Except String String :=
  if concerns = "" then dbConcernsOr dbMatch fallback else .ok concerns

/-- The partial record the HTML-fallback branch builds once the
reasonForConcern text rc is in hand. finalScore is
score or-else (dbMatch ? dbMatch.baseScore : calculateDefaultScore),
which is undefined exactly when the score text was unparseable and the
curated layer hit the junk prototype object; getSafetyLevel then
receives undefined and yields High Concern. -/
def htmlRecord (ingredient scoreText functionText useText rc : String) : PartialIngredient :=
  let score := parseScore (some (jsTrim scoreText))
  let dbMatch := findIngredientInDatabase ingredient
  let finalScore := jsOrNatOO score (dbBaseScoreOr dbMatch (calculateDefaultScore ingredient))
  { ewgScore := finalScore
  , safetyLevel := some (getSafetyLevelU finalScore)
  , reasonForConcern := some rc
  , function := jsOrStrOO (some (jsTrim functionText))
      (dbCategoryOr dbMatch (getIngredientFunction ingredient))
  , commonUse := some (jsOrStr (jsTrim useText) (getCommonUse ingredient))
  , scientificName := dbScientificName dbMatch
  , benefits := dbBenefits dbMatch
  , restrictions := dbRestrictions dbMatch
  , naturalAlternatives := dbNaturalAlternatives dbMatch
  , researchLinks := dbResearchLinks dbMatch }

/-- Body of the source's fetchEWGData before its try/catch: an
exception from a collaborator, or the TypeError raised by reading
.concerns.join off the junk prototype object, surfaces as an error
value here. On the structured path note that safetyLevel is computed
from the possibly null parseScore result (JS relational operators
coerce null to 0). -/
def fetchEWGDataBody (ingredient : String) (outcome : RemoteOutcome) :
    Except String (Option PartialIngredient) :=
  match outcome with
  | .exnThrown => .error "network, JSON, or HTML parsing raised"
  | .notOk => .ok none
  | .neither => .ok none
  | .structured products =>
      match products with
      | [] => .ok none
      | p :: _ =>
          .ok (some
            { ewgScore := parseScore p.score
            , safetyLevel := some (getSafetyLevelInt (jsNumOfNullable (parseScore p.score)))
            , reasonForConcern := p.concerns.map joinComma
            , function := p.category
            , commonUse := some (getCommonUse ingredient) })
  | .htmlNoListing => .ok none
  | .htmlListing scoreText concernItems functionText useText =>
      match htmlReason (joinComma (concernItems.map jsTrim))
          (findIngredientInDatabase ingredient)
          (getDefaultConcern (jsOrNatO (parseScore (some (jsTrim scoreText)))
            (calculateDefaultScore ingredient))) with
      | .error e => .error e
      | .ok rc => .ok (some (htmlRecord ingredient scoreText functionText useText rc))

/-- The source's fetchEWGData: the body wrapped in the try/catch that
turns any raised error into a null result. -/
def fetchEWGData (ingredient : String) (outcome : RemoteOutcome) : Option PartialIngredient :=
  match fetchEWGDataBody ingredient outcome with
  | .ok r => r
  | .error _ => none

/-! ## Resolution pipeline -/

/-- The complete ingredient record analyzeIngredients emits. Although
the Ingredient interface declares function and ewgScore as present,
at runtime both can hold undefined when the curated layer hits the
junk prototype object (none models undefined); the last five fields
are optional and are only ever filled from a curated entry. -/
structure Ingredient where
  name : String
  function : Option String
  ewgScore : Option Nat
  safetyLevel : String
  reasonForConcern : String
  commonUse : String
  scientificName : Option String
  benefits : Option String
  restrictions : Option String
  naturalAlternatives : Option String
  researchLinks : Option String
deriving DecidableEq

def isDelim (c : Char) : Bool :=
  c = ',' || c = ';' || c = '\n'

/-- Model of JS String.prototype.split on a one-or-more-delimiters
regex: a run of delimiters is a single separator; a leading or
trailing run still yields an empty leading or trailing field. The
afterDelim flag records that the previous character was part of a
separator run. -/
def splitDelimsAux : List Char → List Char → Bool → List String
  | [], acc, _ => [⟨acc.reverse⟩]
  | c :: rest, acc, afterDelim =>
      if isDelim c then
        if afterDelim then splitDelimsAux rest acc true
        else ⟨acc.reverse⟩ :: splitDelimsAux rest [] true
      else splitDelimsAux rest (c :: acc) false

def splitDelims (s : String) : List String :=
  splitDelimsAux s.data [] false

/-- Model of JS String.prototype.split on a single space (every
occurrence separates, no collapsing). -/
def splitSpaceAux : List Char → List Char → List String
  | [], acc => [⟨acc.reverse⟩]
  | c :: rest, acc =>
      if c = ' ' then ⟨acc.reverse⟩ :: splitSpaceAux rest []
      else splitSpaceAux rest (c :: acc)

/-- charAt(0).toUpperCase() + slice(1): the empty word maps to the
empty word. -/
def capitalizeWord (w : String) : String :=
  match w.data with
  | [] => ""
  | c :: t => ⟨c.toUpper :: t⟩

/-- Title-casing of the output name in analyzeIngredients. -/
def titleCase (s : String) : String :=
  String.intercalate " " ((splitSpaceAux s.data []).map capitalizeWord)

/-- Tokenization step of analyzeIngredients: lowercase the whole
input, split on runs of commas, semicolons and newlines, trim each
piece, keep only truthy pieces longer than one character. -/
def splitTokens (ingredientList : String) : List String :=
  ((splitDelims (toLowerStr ingredientList)).map jsTrim).filter
    (fun item => !(item == "") && decide (item.length > 1))

/-- The reasonForConcern expression of the analyzeIngredients loop:
ewgData?.reasonForConcern or-else
(dbMatch ? dbMatch.concerns.join : getDefaultConcern(...)). Reading
the join off the junk prototype object raises a TypeError that this
time is not caught by anything, so it escapes analyzeIngredients. -/
def resolveReason (ewgData : Option PartialIngredient) (dbMatch : DBMatch)
    (name : String) : Except String String :=
  match ewgData.bind (fun r => r.reasonForConcern) with
  | some s =>
      if s = "" then dbConcernsOr dbMatch (getDefaultConcern (calculateDefaultScore name))
      else .ok s
  | none => dbConcernsOr dbMatch (getDefaultConcern (calculateDefaultScore name))

/-- The record the analyzeIngredients loop pushes for a token once the
reasonForConcern text rc is in hand: field-by-field JS truthy-or
fallbacks over the remote partial record, the curated lookup result
and the heuristic classifier. -/
def mkRecord (ewgData : Option PartialIngredient) (dbMatch : DBMatch) (name : String)
    (rc : String) : Ingredient :=
  { name := titleCase name
  , function := jsOrStrOO (ewgData.bind (fun r => r.function))
      (dbCategoryOr dbMatch (getIngredientFunction name))
  , ewgScore := jsOrNatOO (ewgData.bind (fun r => r.ewgScore))
      (dbBaseScoreOr dbMatch (calculateDefaultScore name))
  , safetyLevel := jsOrStrO (ewgData.bind (fun r => r.safetyLevel))
      (dbSafetyLevelOr dbMatch (getSafetyLevel (calculateDefaultScore name)))
  , reasonForConcern := rc
  , commonUse := jsOrStrO (ewgData.bind (fun r => r.commonUse)) (getCommonUse name)
  , scientificName := dbScientificName dbMatch
  , benefits := dbBenefits dbMatch
  , restrictions := dbRestrictions dbMatch
  , naturalAlternatives := dbNaturalAlternatives dbMatch
  , researchLinks := dbResearchLinks dbMatch }

/-- One iteration of the analyzeIngredients loop for a token: fetch
remote data (the oracle gives the collaborator outcome for a name),
always compute the curated lookup, and build the record; the only
subexpression that can raise is the reasonForConcern fallback, and a
raise aborts the iteration (and with it the whole loop). -/
def resolveOne (remote : String → RemoteOutcome) (name : String) :
    Except String Ingredient :=
  match resolveReason (fetchEWGData name (remote name)) (findIngredientInDatabase name)
      name with
  | .error e => .error e
  | .ok rc =>
      .ok (mkRecord (fetchEWGData name (remote name)) (findIngredientInDatabase name)
        name rc)

/-- The sequential for-loop of analyzeIngredients: resolve tokens in
order, accumulating records; an exception in any iteration propagates
out and discards the whole result. -/
def resolveAll (remote : String → RemoteOutcome) :
    List String → Except String (List Ingredient)
  | [] => .ok []
  | nm :: rest =>
      match resolveOne remote nm with
      | .error e => .error e
      | .ok r =>
          match resolveAll remote rest with
          | .error e => .error e
          | .ok rs => .ok (r :: rs)

/-- The source's analyzeIngredients: tokenize, then resolve each token
in order; the returned promise either delivers one record per token or
rejects with the first exception raised in the loop. -/
def analyzeIngredients (remote : String → RemoteOutcome) (ingredientList : String) :
    Except String (List Ingredient) :=
  resolveAll remote (splitTokens ingredientList)

/-! ## Helper lemmas -/

theorem jsOrNatO_range (o : Option Nat) (d : Nat)
    (ho : ∀ m, o = some m → 1 ≤ m ∧ m ≤ 10) (hd : 1 ≤ d ∧ d ≤ 10) :
    1 ≤ jsOrNatO o d ∧ jsOrNatO o d ≤ 10 := by
  cases o with
  | none => exact hd
  | some m =>
      by_cases hm : m = 0
      · simp [jsOrNatO, hm]; omega
      · have := ho m rfl
        simp [jsOrNatO, hm]; omega

theorem parseScore_range (t : Option String) (n : Nat)
    (h : parseScore t = some n) : 1 ≤ n ∧ n ≤ 10 := by
  cases t with
  | none => simp [parseScore] at h
  | some s =>
      by_cases hs : s = ""
      · simp [parseScore, hs] at h
      · rw [parseScore] at h
        rw [if_neg hs] at h
        cases hfn : firstNumber s with
        | some m =>
            rw [hfn] at h
            have hn : n = max 1 (min 10 m) := (Option.some_inj.mp h).symm
            omega
        | none =>
            rw [hfn] at h
            split_ifs at h <;> (have hx := Option.some_inj.mp h; omega)

theorem db_baseScore_range :
    ∀ kv ∈ ingredientDatabase, 1 ≤ kv.2.baseScore ∧ kv.2.baseScore ≤ 10 := by
  decide

theorem riskPatterns_score_range :
    ∀ tier ∈ riskPatterns, 1 ≤ tier.1 ∧ tier.1 ≤ 10 := by
  decide

theorem calculateDefaultScore_range (s : String) :
    1 ≤ calculateDefaultScore s ∧ calculateDefaultScore s ≤ 10 := by
  rw [calculateDefaultScore]
  cases hf : riskPatterns.find? (fun tier => tier.2.any (fun p => patTest p s)) with
  | none => exact ⟨by decide, by decide⟩
  | some tier =>
      have hmem : tier ∈ riskPatterns := List.mem_of_find?_eq_some hf
      exact riskPatterns_score_range tier hmem

/-- Similarity of the (already normalized) name to a table key. -/
def simTo (n : String) (kv : String × DBEntry) : ℚ :=
  calculateStringSimilarity n kv.1

/-- One step of the source's best-match loop. -/
def scanStep (n : String) (acc : Option DBEntry × ℚ) (kv : String × DBEntry) :
    Option DBEntry × ℚ :=
  if simTo n kv > acc.2 ∧ simTo n kv > (8 : ℚ) / 10
  then (some kv.2, simTo n kv) else acc

theorem findIngredientInDatabase_eq (name : String) :
    findIngredientInDatabase name =
      match ingredientDatabase.find? (fun kv => kv.1 == toLowerStr name) with
      | some kv => DBMatch.entry kv.2
      | none =>
          if protoChainKeys.contains (toLowerStr name) then DBMatch.protoObject
          else
            match (ingredientDatabase.foldl (scanStep (toLowerStr name))
                ((none : Option DBEntry), (0 : ℚ))).1 with
            | some e => DBMatch.entry e
            | none => DBMatch.null :=
  rfl

theorem scan_result_mem (n : String) :
    ∀ (l : List (String × DBEntry)) (acc : Option DBEntry × ℚ),
      (l.foldl (scanStep n) acc).1 = acc.1
      ∨ ∃ kv ∈ l, (l.foldl (scanStep n) acc).1 = some kv.2 := by
  intro l
  induction l with
  | nil => intro acc; left; rfl
  | cons kv t iht =>
      intro acc
      rw [List.foldl_cons]
      rcases iht (scanStep n acc kv) with h | ⟨kv', hmem, h⟩
      · by_cases hc : simTo n kv > acc.2 ∧ simTo n kv > (8 : ℚ) / 10
        · right
          refine ⟨kv, List.mem_cons_self kv t, ?_⟩
          rw [h]
          show (scanStep n acc kv).1 = some kv.2
          rw [scanStep, if_pos hc]
        · left
          rw [h]
          show (scanStep n acc kv).1 = acc.1
          rw [scanStep, if_neg hc]
      · right
        exact ⟨kv', List.mem_cons_of_mem kv hmem, h⟩

theorem findIngredientInDatabase_mem (s : String) (e : DBEntry)
    (h : findIngredientInDatabase s = DBMatch.entry e) :
    ∃ kv ∈ ingredientDatabase, kv.2 = e := by
  rw [findIngredientInDatabase_eq] at h
  cases hf : ingredientDatabase.find? (fun kv => kv.1 == toLowerStr s) with
  | some kv =>
      rw [hf] at h
      have h' : DBMatch.entry kv.2 = DBMatch.entry e := h
      exact ⟨kv, List.mem_of_find?_eq_some hf, DBMatch.entry.inj h'⟩
  | none =>
      rw [hf] at h
      by_cases hp : protoChainKeys.contains (toLowerStr s) = true
      · rw [if_pos hp] at h
        exact DBMatch.noConfusion h
      · rw [if_neg hp] at h
        rcases scan_result_mem (toLowerStr s) ingredientDatabase
            ((none : Option DBEntry), (0 : ℚ)) with h0 | ⟨kv, hmem, hkv⟩
        · rw [h0] at h
          simp at h
        · rw [hkv] at h
          have h' : DBMatch.entry kv.2 = DBMatch.entry e := h
          exact ⟨kv, hmem, DBMatch.entry.inj h'⟩

theorem findIngredientInDatabase_baseScore_range (s : String) (e : DBEntry)
    (h : findIngredientInDatabase s = DBMatch.entry e) :
    1 ≤ e.baseScore ∧ e.baseScore ≤ 10 := by
  rcases findIngredientInDatabase_mem s e h with ⟨kv, hmem, hkv⟩
  have := db_baseScore_range kv hmem
  rw [hkv] at this
  exact this

theorem jsOrNatOO_range (a b : Option Nat) (n : Nat)
    (ha : ∀ m, a = some m → 1 ≤ m ∧ m ≤ 10)
    (hb : ∀ m, b = some m → 1 ≤ m ∧ m ≤ 10)
    (h : jsOrNatOO a b = some n) : 1 ≤ n ∧ n ≤ 10 := by
  cases a with
  | none => exact hb n h
  | some m =>
      by_cases hm : m = 0
      · have he : jsOrNatOO (some m) b = b := by rw [jsOrNatOO, if_pos hm]
        rw [he] at h
        exact hb n h
      · have he : jsOrNatOO (some m) b = some m := by rw [jsOrNatOO, if_neg hm]
        rw [he] at h
        exact ha n h

theorem dbBaseScoreOr_fallback_range (s : String) (m : Nat)
    (h : dbBaseScoreOr (findIngredientInDatabase s) (calculateDefaultScore s) = some m) :
    1 ≤ m ∧ m ≤ 10 := by
  cases hdb : findIngredientInDatabase s with
  | entry e =>
      rw [hdb] at h
      simp only [dbBaseScoreOr, Option.some.injEq] at h
      have := findIngredientInDatabase_baseScore_range s e hdb
      omega
  | protoObject =>
      rw [hdb] at h
      simp [dbBaseScoreOr] at h
  | null =>
      rw [hdb] at h
      simp only [dbBaseScoreOr, Option.some.injEq] at h
      have := calculateDefaultScore_range s
      omega

theorem fetchEWGDataBody_htmlListing (ing scoreText : String) (concernItems : List String)
    (functionText useText : String) :
    fetchEWGDataBody ing (RemoteOutcome.htmlListing scoreText concernItems functionText useText)
      = match htmlReason (joinComma (concernItems.map jsTrim)) (findIngredientInDatabase ing)
          (getDefaultConcern (jsOrNatO (parseScore (some (jsTrim scoreText)))
            (calculateDefaultScore ing))) with
        | .error e => .error e
        | .ok rc => .ok (some (htmlRecord ing scoreText functionText useText rc)) :=
  rfl

theorem fetchEWGData_htmlListing (ing scoreText : String) (concernItems : List String)
    (functionText useText : String) :
    fetchEWGData ing (RemoteOutcome.htmlListing scoreText concernItems functionText useText)
      = match htmlReason (joinComma (concernItems.map jsTrim)) (findIngredientInDatabase ing)
          (getDefaultConcern (jsOrNatO (parseScore (some (jsTrim scoreText)))
            (calculateDefaultScore ing))) with
        | .error _ => none
        | .ok rc => some (htmlRecord ing scoreText functionText useText rc) := by
  rw [fetchEWGData, fetchEWGDataBody_htmlListing]
  cases htmlReason (joinComma (concernItems.map jsTrim)) (findIngredientInDatabase ing)
      (getDefaultConcern (jsOrNatO (parseScore (some (jsTrim scoreText)))
        (calculateDefaultScore ing))) with
  | error e => rfl
  | ok rc => rfl

theorem fetch_ewgScore_range (ing : String) (o : RemoteOutcome)
    (r : PartialIngredient) (n : Nat)
    (hr : fetchEWGData ing o = some r) (hn : r.ewgScore = some n) :
    1 ≤ n ∧ n ≤ 10 := by
  cases o with
  | exnThrown => simp [fetchEWGData, fetchEWGDataBody] at hr
  | notOk => simp [fetchEWGData, fetchEWGDataBody] at hr
  | neither => simp [fetchEWGData, fetchEWGDataBody] at hr
  | htmlNoListing => simp [fetchEWGData, fetchEWGDataBody] at hr
  | structured products =>
      cases products with
      | nil => simp [fetchEWGData, fetchEWGDataBody] at hr
      | cons p ps =>
          simp only [fetchEWGData, fetchEWGDataBody, Option.some.injEq] at hr
          rw [← hr] at hn
          exact parseScore_range p.score n hn
  | htmlListing scoreText concernItems functionText useText =>
      rw [fetchEWGData_htmlListing] at hr
      cases hx : htmlReason (joinComma (concernItems.map jsTrim))
          (findIngredientInDatabase ing)
          (getDefaultConcern (jsOrNatO (parseScore (some (jsTrim scoreText)))
            (calculateDefaultScore ing))) with
      | error e =>
          rw [hx] at hr
          simp at hr
      | ok rc =>
          rw [hx] at hr
          have hr' : htmlRecord ing scoreText functionText useText rc = r :=
            Option.some_inj.mp hr
          rw [← hr'] at hn
          have hn' : jsOrNatOO (parseScore (some (jsTrim scoreText)))
              (dbBaseScoreOr (findIngredientInDatabase ing) (calculateDefaultScore ing))
              = some n := hn
          refine jsOrNatOO_range _ _ n ?_ ?_ hn'
          · intro m hm
            exact parseScore_range _ m hm
          · intro m hm
            exact dbBaseScoreOr_fallback_range ing m hm

/-! ### Whitespace and tokenization lemmas -/

theorem toLower_of_whitespace (c : Char) (h : c.isWhitespace = true) :
    Char.toLower c = c := by
  simp [Char.isWhitespace] at h
  rcases h with ((h | h) | h) | h <;> (try subst h) <;> decide

theorem splitDelimsAux_whitespace :
    ∀ (l acc : List Char) (flag : Bool),
      (∀ c ∈ l, c.isWhitespace = true) → (∀ c ∈ acc, c.isWhitespace = true) →
      ∀ t ∈ splitDelimsAux l acc flag, ∀ c ∈ t.data, c.isWhitespace = true := by
  intro l
  induction l with
  | nil =>
      intro acc flag _ hacc t ht c hc
      simp [splitDelimsAux] at ht
      subst ht
      have : c ∈ acc.reverse := hc
      exact hacc c (List.mem_reverse.mp this)
  | cons d rest ihr =>
      intro acc flag hl hacc t ht c hc
      have hld : ∀ x ∈ rest, x.isWhitespace = true :=
        fun x hx => hl x (List.mem_cons_of_mem d hx)
      rw [splitDelimsAux] at ht
      split_ifs at ht with hd hflag
      · exact ihr acc true hld hacc t ht c hc
      · rcases List.mem_cons.mp ht with rfl | ht'
        · exact hacc c (List.mem_reverse.mp hc)
        · exact ihr [] true hld (by intro x hx; cases hx) t ht' c hc
      · refine ihr (d :: acc) false hld ?_ t ht c hc
        intro x hx
        rcases List.mem_cons.mp hx with rfl | hx'
        · exact hl _ (List.mem_cons_self _ _)
        · exact hacc x hx'

theorem jsTrim_of_whitespace (s : String) (h : ∀ c ∈ s.data, c.isWhitespace = true) :
    jsTrim s = "" := by
  have h1 : s.data.dropWhile Char.isWhitespace = [] :=
    List.dropWhile_eq_nil_iff.mpr h
  rw [jsTrim, h1]
  rfl

theorem splitTokens_of_whitespace (input : String)
    (h : ∀ c ∈ input.data, c.isWhitespace = true) : splitTokens input = [] := by
  rw [splitTokens]
  apply List.filter_eq_nil_iff.mpr
  intro t ht
  rcases List.mem_map.mp ht with ⟨t0, ht0, rfl⟩
  have hws : ∀ c ∈ t0.data, c.isWhitespace = true := by
    refine splitDelimsAux_whitespace (toLowerStr input).data [] false ?_ ?_ t0 ht0
    · intro c hc
      rcases List.mem_map.mp hc with ⟨c0, hc0, rfl⟩
      rw [toLower_of_whitespace c0 (h c0 hc0)]
      exact h c0 hc0
    · intro x hx; cases hx
  rw [jsTrim_of_whitespace t0 hws]
  decide

/-! ### Characterizing the fuzzy database scan -/

/-- Running maximum of the similarities over a list of entries. -/
def maxSimFold (n : String) (l : List (String × DBEntry)) (v : ℚ) : ℚ :=
  l.foldl (fun m kv => max m (simTo n kv)) v

theorem maxSimFold_cons (n : String) (kv : String × DBEntry) (t : List (String × DBEntry))
    (v : ℚ) : maxSimFold n (kv :: t) v = maxSimFold n t (max v (simTo n kv)) :=
  rfl

theorem maxSimFold_init_le (n : String) :
    ∀ (l : List (String × DBEntry)) (v : ℚ), v ≤ maxSimFold n l v := by
  intro l
  induction l with
  | nil => intro v; exact le_rfl
  | cons kv t iht =>
      intro v
      rw [maxSimFold_cons]
      exact le_trans (le_max_left v (simTo n kv)) (iht (max v (simTo n kv)))

theorem maxSimFold_mem_le (n : String) :
    ∀ (l : List (String × DBEntry)) (v : ℚ) (kv : String × DBEntry), kv ∈ l →
      simTo n kv ≤ maxSimFold n l v := by
  intro l
  induction l with
  | nil => intro v kv h; cases h
  | cons kv0 t iht =>
      intro v kv h
      rw [maxSimFold_cons]
      rcases List.mem_cons.mp h with rfl | h'
      · exact le_trans (le_max_right v (simTo n kv)) (maxSimFold_init_le n t _)
      · exact iht _ kv h'

theorem maxSimFold_cases (n : String) :
    ∀ (l : List (String × DBEntry)) (v : ℚ),
      maxSimFold n l v = v ∨ ∃ kv ∈ l, maxSimFold n l v = simTo n kv := by
  intro l
  induction l with
  | nil => intro v; left; rfl
  | cons kv0 t iht =>
      intro v
      rw [maxSimFold_cons]
      rcases iht (max v (simTo n kv0)) with h | ⟨kv, hmem, h⟩
      · rcases le_total (simTo n kv0) v with hle | hle
        · left; rw [h]; exact max_eq_left hle
        · right
          exact ⟨kv0, List.mem_cons_self kv0 t, by rw [h]; exact max_eq_right hle⟩
      · right
        exact ⟨kv, List.mem_cons_of_mem kv0 hmem, h⟩

theorem maxSimFold_bubble (n : String) :
    ∀ (l : List (String × DBEntry)) (v a : ℚ),
      maxSimFold n l (max v a) = max a (maxSimFold n l v) := by
  intro l
  induction l with
  | nil => intro v a; exact max_comm v a
  | cons kv t iht =>
      intro v a
      rw [maxSimFold_cons, maxSimFold_cons]
      have hac : max (max v a) (simTo n kv) = max (max v (simTo n kv)) a := by
        rw [max_assoc, max_comm a (simTo n kv), ← max_assoc]
      rw [hac, iht]

theorem maxSimFold_of_all_le (n : String) :
    ∀ (l : List (String × DBEntry)) (v : ℚ),
      (∀ kv ∈ l, simTo n kv ≤ v) → maxSimFold n l v = v := by
  intro l
  induction l with
  | nil => intro v _; rfl
  | cons kv t iht =>
      intro v h
      rw [maxSimFold_cons, max_eq_left (h kv (List.mem_cons_self kv t))]
      exact iht v (fun kv' h' => h kv' (List.mem_cons_of_mem kv h'))

theorem scan_no_update (n : String) :
    ∀ (l : List (String × DBEntry)) (b : Option DBEntry) (v : ℚ),
      (∀ kv ∈ l, simTo n kv ≤ max v ((8 : ℚ) / 10)) →
      l.foldl (scanStep n) (b, v) = (b, v) := by
  intro l
  induction l with
  | nil => intro b v _; rfl
  | cons kv t iht =>
      intro b v h
      rw [List.foldl_cons]
      have hno : ¬ (simTo n kv > v ∧ simTo n kv > (8 : ℚ) / 10) := by
        rintro ⟨h1, h2⟩
        exact absurd (h kv (List.mem_cons_self kv t)) (not_le.mpr (max_lt h1 h2))
      rw [show scanStep n (b, v) kv = (b, v) from by simp [scanStep, hno]]
      exact iht b v (fun kv' h' => h kv' (List.mem_cons_of_mem kv h'))

theorem scan_first_max (n : String) :
    ∀ (l : List (String × DBEntry)) (b : Option DBEntry) (v : ℚ),
      (∃ kv ∈ l, simTo n kv > v ∧ simTo n kv > (8 : ℚ) / 10) →
      l.foldl (scanStep n) (b, v) =
        ((l.find? (fun kv => decide (simTo n kv = maxSimFold n l v))).map (fun kv => kv.2),
          maxSimFold n l v) := by
  intro l
  induction l with
  | nil =>
      intro b v hex
      rcases hex with ⟨kv, hmem, _⟩
      cases hmem
  | cons kv t iht =>
      intro b v hex
      rw [List.foldl_cons]
      by_cases hup : simTo n kv > v ∧ simTo n kv > (8 : ℚ) / 10
      · rw [show scanStep n (b, v) kv = (some kv.2, simTo n kv) from by
          simp [scanStep, hup]]
        have hvmax : max v (simTo n kv) = simTo n kv := max_eq_right (le_of_lt hup.1)
        have hM : maxSimFold n (kv :: t) v = maxSimFold n t (simTo n kv) := by
          rw [maxSimFold_cons, hvmax]
        by_cases hex2 : ∃ kv' ∈ t, simTo n kv' > simTo n kv ∧ simTo n kv' > (8 : ℚ) / 10
        · rw [iht (some kv.2) (simTo n kv) hex2]
          obtain ⟨kv', hmem', hgt', hθ'⟩ := hex2
          have hMgt : simTo n kv < maxSimFold n t (simTo n kv) :=
            lt_of_lt_of_le hgt' (maxSimFold_mem_le n t (simTo n kv) kv' hmem')
          simp only [hM]
          rw [List.find?_cons_of_neg _
            (by simp only [decide_eq_true_eq]; exact ne_of_lt hMgt)]
        · push_neg at hex2
          have hall : ∀ kv' ∈ t, simTo n kv' ≤ max (simTo n kv) ((8 : ℚ) / 10) := by
            intro kv' hmem'
            rcases le_or_lt (simTo n kv') (simTo n kv) with hle | hlt
            · exact le_trans hle (le_max_left _ _)
            · exact le_trans (hex2 kv' hmem' hlt) (le_max_right _ _)
          rw [scan_no_update n t (some kv.2) (simTo n kv) hall]
          have hM2 : maxSimFold n (kv :: t) v = simTo n kv := by
            rw [hM]
            apply maxSimFold_of_all_le
            intro kv' hmem'
            rcases le_or_lt (simTo n kv') (simTo n kv) with hle | hlt
            · exact hle
            · exact le_trans (hex2 kv' hmem' hlt) (le_of_lt hup.2)
          simp only [hM2]
          rw [List.find?_cons_of_pos _ (by simp)]
          rfl
      · rw [show scanStep n (b, v) kv = (b, v) from by simp [scanStep, hup]]
        obtain ⟨kv', hmem, hgt, hθ⟩ := hex
        rcases List.mem_cons.mp hmem with rfl | hmem'
        · exact absurd ⟨hgt, hθ⟩ hup
        have hex2 : ∃ kv'' ∈ t, simTo n kv'' > v ∧ simTo n kv'' > (8 : ℚ) / 10 :=
          ⟨kv', hmem', hgt, hθ⟩
        rw [iht b v hex2]
        have hMt_ge : simTo n kv' ≤ maxSimFold n t v := maxSimFold_mem_le n t v kv' hmem'
        have hθk : simTo n kv ≤ v ∨ simTo n kv ≤ (8 : ℚ) / 10 := by
          by_contra hcon
          push_neg at hcon
          exact hup ⟨hcon.1, hcon.2⟩
        have hlt' : simTo n kv < maxSimFold n t v := by
          rcases hθk with hle | hle
          · exact lt_of_le_of_lt hle (lt_of_lt_of_le hgt hMt_ge)
          · exact lt_of_le_of_lt hle (lt_of_lt_of_le hθ hMt_ge)
        have hM : maxSimFold n (kv :: t) v = maxSimFold n t v := by
          rw [maxSimFold_cons]
          rcases le_or_lt (simTo n kv) v with hle | hlt
          · rw [max_eq_left hle]
          · rw [maxSimFold_bubble]
            exact max_eq_right (le_of_lt hlt')
        simp only [hM]
        rw [List.find?_cons_of_neg _
          (by simp only [decide_eq_true_eq]; exact ne_of_lt hlt')]

/-- Spec-side maximum similarity over all keys (the tracked maximum
the claim speaks about). -/
def maxSimilarity (n : String) : ℚ :=
  (ingredientDatabase.map (fun kv => calculateStringSimilarity n kv.1)).foldl max 0

/-- Spec-side fuzzy pick, written to the claim's words: when the
maximum similarity exceeds the 0.8 threshold, the first entry (in
table-declaration order) attaining that maximum; otherwise none. -/
def specFuzzyPick (n : String) : Option DBEntry :=
  if maxSimilarity n > (8 : ℚ) / 10 then
    (ingredientDatabase.find?
        (fun kv => decide (calculateStringSimilarity n kv.1 = maxSimilarity n))).map
      (fun kv => kv.2)
  else none

theorem maxSimilarity_eq_fold (nm : String) :
    maxSimilarity nm = maxSimFold nm ingredientDatabase 0 := by
  rw [maxSimilarity, maxSimFold, List.foldl_map]
  rfl

theorem scan_eq_specFuzzyPick (nm : String) :
    (ingredientDatabase.foldl (scanStep nm) ((none : Option DBEntry), (0 : ℚ))).1
      = specFuzzyPick nm := by
  by_cases hmax : maxSimilarity nm > (8 : ℚ) / 10
  · have hex : ∃ kv ∈ ingredientDatabase,
        simTo nm kv > 0 ∧ simTo nm kv > (8 : ℚ) / 10 := by
      rcases maxSimFold_cases nm ingredientDatabase 0 with h0 | ⟨kv, hmem, hMv⟩
      · rw [maxSimilarity_eq_fold, h0] at hmax
        norm_num at hmax
      · rw [maxSimilarity_eq_fold, hMv] at hmax
        refine ⟨kv, hmem, lt_trans (by norm_num) hmax, hmax⟩
    rw [scan_first_max nm ingredientDatabase none 0 hex]
    rw [specFuzzyPick, if_pos hmax]
    simp only [maxSimilarity_eq_fold]
    rfl
  · have hmax' : maxSimilarity nm ≤ (8 : ℚ) / 10 := not_lt.mp hmax
    have hall : ∀ kv ∈ ingredientDatabase,
        simTo nm kv ≤ max 0 ((8 : ℚ) / 10) := by
      intro kv hmem
      have h1 : simTo nm kv ≤ maxSimilarity nm := by
        rw [maxSimilarity_eq_fold]
        exact maxSimFold_mem_le nm ingredientDatabase 0 kv hmem
      rw [max_eq_right (by norm_num : (0 : ℚ) ≤ 8 / 10)]
      exact le_trans h1 hmax'
    rw [scan_no_update nm ingredientDatabase none 0 hall]
    rw [specFuzzyPick, if_neg hmax]

theorem fuzzy_eq_specFuzzyPick (name : String)
    (hnone : ingredientDatabase.find? (fun kv => kv.1 == toLowerStr name) = none)
    (hproto : protoChainKeys.contains (toLowerStr name) = false) :
    findIngredientInDatabase name =
      match specFuzzyPick (toLowerStr name) with
      | some e => DBMatch.entry e
      | none => DBMatch.null := by
  rw [findIngredientInDatabase_eq, hnone]
  rw [if_neg (by rw [hproto]; exact Bool.false_ne_true)]
  rw [scan_eq_specFuzzyPick]

/-! ### Score parsing and common-use helpers -/

theorem firstDigitRun_isSome_iff :
    ∀ (l : List Char), (∃ c ∈ l, c.isDigit = true) ↔ (firstDigitRun l).isSome = true := by
  intro l
  induction l with
  | nil => simp [firstDigitRun]
  | cons c t iht =>
      by_cases hc : c.isDigit = true
      · simp [firstDigitRun, hc]
      · rw [firstDigitRun, if_neg hc]
        constructor
        · rintro ⟨c', hc', hd⟩
          rcases List.mem_cons.mp hc' with rfl | h'
          · exact absurd hd hc
          · exact iht.mp ⟨c', h', hd⟩
        · intro h
          rcases iht.mpr h with ⟨c', h', hd⟩
          exact ⟨c', List.mem_cons_of_mem c h', hd⟩

theorem getCommonUse_ne_empty (s : String) : getCommonUse s ≠ "" := by
  rw [getCommonUse]
  cases hf : usesTable.find? (fun uk => uk.2.any (fun kw => containsCI kw s)) with
  | none => decide
  | some uk =>
      have hmem : uk ∈ usesTable := List.mem_of_find?_eq_some hf
      have hall : ∀ u ∈ usesTable, u.1 ≠ "" := by decide
      exact hall uk hmem

theorem fetchEWGData_structured_commonUse (ing : String) (p : ProductData)
    (ps : List ProductData) :
    (fetchEWGData ing (RemoteOutcome.structured (p :: ps))).bind (fun r => r.commonUse)
      = some (getCommonUse ing) :=
  rfl

/-! ## Claim theorems -/

/-- C1: the claim says every record returned by analyzeIngredients has
safetyLevel equal to the band function of its own ewgScore, for all
remote-lookup outcomes. The code violates this: on the structured
remote path with an unparseable score text, getSafetyLevel is applied
to the null score (which JS compares as 0, giving Low Concern) while
ewgScore falls back to the heuristic score. At input "methylparaben"
with a structured remote response whose first product has score text
"N/A", the returned record carries ewgScore 8 but safetyLevel
"Low Concern", whereas the band of 8 is "High Concern". -/
theorem c1_safetyLevel_band_violated_at_failing_input :
    (analyzeIngredients
        (fun _ => RemoteOutcome.structured [{ score := some "N/A" }])
        "methylparaben").map (fun rs => rs.map (fun r => (r.ewgScore, r.safetyLevel)))
      = Except.ok [(some 8, "Low Concern")]
    ∧ getSafetyLevel 8 = "High Concern" :=
  ⟨by with_unfolding_all rfl, rfl⟩

/-- C3: the claim says the ewgScore of every record analyzeIngredients
returns is an integer between 1 and 10. The code violates this: on the
token "constructor" the curated lookup hits the Object-prototype
constructor property through the JS in operator, the truthiness test
on that junk object succeeds, and its baseScore reads as undefined;
with the structured remote path supplying an unparseable score text
(so the remote score is null) and a truthy concern list (so no
TypeError is raised on the concerns fallback), the pipeline returns a
record whose ewgScore is undefined - not an integer in [1,10] and in
particular not the heuristic clamp the claim requires. -/
theorem c3_score_range_violated_at_proto_token :
    (analyzeIngredients
        (fun _ => RemoteOutcome.structured
          [{ score := some "N/A", concerns := some ["Possible irritant"] }])
        "constructor").map (fun rs => rs.map (fun r => r.ewgScore))
      = Except.ok [none]
    ∧ findIngredientInDatabase "constructor" = DBMatch.protoObject
    ∧ ingredientDatabase.find? (fun kv => kv.1 == "constructor") = none :=
  ⟨rfl, rfl, rfl⟩

/-- C4: the adapter never propagates an error. Any error raised in the
body surfaces as none from fetchEWGData, and every collaborator
failure outcome (transport exception, non-ok status, malformed JSON
i.e. a raising json(), HTML with no parseable listing) yields none as
an ordinary result. -/
theorem c4_fetchEWGData_catches_all_errors :
    (∀ (ing : String) (outcome : RemoteOutcome) (err : String),
        fetchEWGDataBody ing outcome = Except.error err →
        fetchEWGData ing outcome = none)
    ∧ (∀ (ing : String) (outcome : RemoteOutcome),
        outcome.isFailure = true → fetchEWGData ing outcome = none) := by
  constructor
  · intro ing outcome err h
    rw [fetchEWGData, h]
  · intro ing outcome h
    cases outcome with
    | exnThrown => rfl
    | notOk => rfl
    | htmlNoListing => rfl
    | neither => simp [RemoteOutcome.isFailure] at h
    | structured products => simp [RemoteOutcome.isFailure] at h
    | htmlListing a b c d => simp [RemoteOutcome.isFailure] at h

/-- Witness for C4 at the exception outcome. -/
theorem c4_fetchEWGData_catches_all_errors_witness :
    fetchEWGData "anything" RemoteOutcome.exnThrown = none :=
  c4_fetchEWGData_catches_all_errors.2 "anything" RemoteOutcome.exnThrown rfl

/-- C5: calculateDefaultScore tests the tier groups in the fixed order
high, moderate, low, veryLow; the first tier with a matching pattern
gives 8, 5, 2 or 1, and 5 is the result when nothing matches. In
particular the high-risk substring pattern for paraben fires on
"Methylparaben", which therefore scores 8. -/
theorem c5_calculateDefaultScore_tier_order :
    (∀ s : String, calculateDefaultScore s =
      (if highRiskPatterns.any (fun p => patTest p s) = true then 8
       else if moderateRiskPatterns.any (fun p => patTest p s) = true then 5
       else if lowRiskPatterns.any (fun p => patTest p s) = true then 2
       else if veryLowRiskPatterns.any (fun p => patTest p s) = true then 1
       else 5))
    ∧ calculateDefaultScore "Methylparaben" = 8
    ∧ patTest (Pat.sub "paraben") "Methylparaben" = true := by
  refine ⟨?_, rfl, rfl⟩
  intro s
  rw [calculateDefaultScore, riskPatterns]
  cases h1 : highRiskPatterns.any (fun p => patTest p s) with
  | true => simp [List.find?, h1]
  | false =>
      cases h2 : moderateRiskPatterns.any (fun p => patTest p s) with
      | true => simp [List.find?, h1, h2]
      | false =>
          cases h3 : lowRiskPatterns.any (fun p => patTest p s) with
          | true => simp [List.find?, h1, h2, h3]
          | false =>
              cases h4 : veryLowRiskPatterns.any (fun p => patTest p s) with
              | true => simp [List.find?, h1, h2, h3, h4]
              | false => simp [List.find?, h1, h2, h3, h4]

/-- C7: parseScore takes the first integer in the text clamped into
1..10 when a digit is present (and a digit is present exactly when the
first-number extractor succeeds); otherwise it tries the low, moderate
and high keyword groups in order, mapping to 2, 5 and 8; otherwise,
and on empty or missing input, it yields none. The two quoted examples
evaluate as claimed. -/
theorem c7_parseScore_characterization :
    (∀ (s : String) (n : Nat), firstNumber s = some n →
        parseScore (some s) = some (max 1 (min 10 n)))
    ∧ (∀ s : String, (∃ c ∈ s.data, c.isDigit = true) ↔ (firstNumber s).isSome = true)
    ∧ (∀ s : String, s ≠ "" → firstNumber s = none →
        parseScore (some s) =
          (if testWordAny lowKeywords s = true then some 2
           else if testWordAny moderateKeywords s = true then some 5
           else if testWordAny highKeywords s = true then some 8
           else none))
    ∧ parseScore none = none
    ∧ parseScore (some "") = none
    ∧ parseScore (some "Score: 7/10") = some 7
    ∧ parseScore (some "This is a low risk ingredient") = some 2 := by
  refine ⟨?_, ?_, ?_, rfl, rfl, rfl, rfl⟩
  · intro s n h
    have hs : s ≠ "" := by
      intro he
      subst he
      rw [show firstNumber "" = none from rfl] at h
      cases h
    rw [parseScore, if_neg hs, h]
  · intro s
    rw [show (firstNumber s).isSome = (firstDigitRun s.data).isSome from by
      rw [firstNumber]; cases firstDigitRun s.data <;> rfl]
    exact firstDigitRun_isSome_iff s.data
  · intro s hs h
    rw [parseScore, if_neg hs, h]

/-- Witness for C7 at the quoted example. -/
theorem c7_parseScore_characterization_witness :
    parseScore (some "Score: 7/10") = some (max 1 (min 10 7)) :=
  c7_parseScore_characterization.1 "Score: 7/10" 7 rfl

/-- C10: on the structured remote path with a non-empty product
sequence the adapter's commonUse field is getCommonUse of the queried
name (never anything extracted from the response), the final merged
record therefore carries exactly getCommonUse of the token, and
getCommonUse always returns a non-empty string (falling back to
"Various applications"). -/
theorem c10_structured_commonUse_is_local_heuristic :
    (∀ s : String, getCommonUse s ≠ "")
    ∧ (∀ (ing : String) (p : ProductData) (ps : List ProductData),
        (fetchEWGData ing (RemoteOutcome.structured (p :: ps))).bind
            (fun r => r.commonUse)
          = some (getCommonUse ing))
    ∧ (∀ (remote : String → RemoteOutcome) (nm : String) (p : ProductData)
        (ps : List ProductData) (r : Ingredient),
        remote nm = RemoteOutcome.structured (p :: ps) →
        resolveOne remote nm = Except.ok r →
        r.commonUse = getCommonUse nm) := by
  refine ⟨getCommonUse_ne_empty, fun ing p ps => rfl, ?_⟩
  intro remote nm p ps r hrem hok
  rw [resolveOne] at hok
  cases hrr : resolveReason (fetchEWGData nm (remote nm))
      (findIngredientInDatabase nm) nm with
  | error e =>
      rw [hrr] at hok
      exact Except.noConfusion hok
  | ok rc =>
      rw [hrr] at hok
      have hok' : (Except.ok (mkRecord (fetchEWGData nm (remote nm))
            (findIngredientInDatabase nm) nm rc) : Except String Ingredient)
          = Except.ok r := hok
      rw [← Except.ok.inj hok']
      have h1 : (mkRecord (fetchEWGData nm (remote nm)) (findIngredientInDatabase nm)
            nm rc).commonUse
          = jsOrStrO ((fetchEWGData nm (remote nm)).bind (fun q => q.commonUse))
              (getCommonUse nm) := rfl
      rw [h1, hrem, fetchEWGData_structured_commonUse]
      show jsOrStr (getCommonUse nm) (getCommonUse nm) = getCommonUse nm
      rw [jsOrStr, if_neg (getCommonUse_ne_empty nm)]

/-- Witness for C10 at a concrete structured outcome. -/
theorem c10_structured_commonUse_is_local_heuristic_witness :
    (resolveOne (fun _ => RemoteOutcome.structured [{}]) "glycerin").map
        (fun r => r.commonUse)
      = Except.ok (getCommonUse "glycerin") := by
  cases hx : resolveOne (fun _ => RemoteOutcome.structured [{}]) "glycerin" with
  | error e =>
      have hok : (resolveOne (fun _ => RemoteOutcome.structured [{}])
          "glycerin").toOption.isSome = true := rfl
      rw [hx] at hok
      simp [Except.toOption] at hok
  | ok r =>
      have hcu := c10_structured_commonUse_is_local_heuristic.2.2
        (fun _ => RemoteOutcome.structured [{}]) "glycerin" {} [] r rfl hx
      simp [Except.map, hcu]

/-- C2: the claim says each composite field of the returned record is
taken from the highest-priority source that supplies it: remote
partial record, else curated entry, else heuristic default, per field.
The code violates this at the token "constructor": the curated lookup
hits the Object-prototype constructor property through the JS in
operator, a truthy junk object carrying no entry fields, so the
curated layer passes the code's truthiness test while supplying
nothing. With a structured remote record whose score text is
unparseable (remote score null) but whose category and concerns are
truthy, the returned record's function is the remote "Misc" (the
priority chain working as claimed) yet its ewgScore is undefined
rather than the heuristic default calculateDefaultScore("constructor")
= 5 that the claim's fallback order requires when neither remote nor
curated entry supplies a score. -/
theorem c2_merge_priority_violated_at_proto_token :
    (analyzeIngredients
        (fun _ => RemoteOutcome.structured
          [{ score := some "no score available"
           , concerns := some ["Data gap"]
           , category := some "Misc" }])
        "constructor").map
        (fun rs => rs.map (fun r => (r.function, r.ewgScore)))
      = Except.ok [(some "Misc", none)]
    ∧ calculateDefaultScore "constructor" = 5
    ∧ findIngredientInDatabase "constructor" = DBMatch.protoObject :=
  ⟨rfl, rfl, rfl⟩

/-- C6: the claim says findIngredientInDatabase lowercases and trims
its input, matches exactly against the table and otherwise returns the
best fuzzy entry over the 0.8 threshold or none. Two counterexamples:
the code does not trim, so on the input with spaces around the curated
key vitamin e the claimed exact match misses and the untrimmed string
also fails the fuzzy threshold, giving the no-match result; and the
membership test is the JS in operator, which consults the prototype
chain, so the non-key input constructor returns the truthy inherited
junk object instead of an entry or none. -/
theorem c6_lookup_claim_counterexample :
    findIngredientInDatabase "   vitamin e   " = DBMatch.null
    ∧ toLowerStr (jsTrim "   vitamin e   ") = "vitamin e"
    ∧ (ingredientDatabase.find? (fun kv => kv.1 == "vitamin e")).isSome = true
    ∧ findIngredientInDatabase "constructor" = DBMatch.protoObject
    ∧ ingredientDatabase.find? (fun kv => kv.1 == "constructor") = none :=
  of_decide_eq_true (by with_unfolding_all rfl)

/-- C6 (amended): findIngredientInDatabase normalizes the name to
lowercase only (no trim); an exact own-key match returns that entry,
short-circuiting everything else; otherwise a lowercase
Object-prototype property name (constructor, proto accessor) hits the
prototype chain of the table literal and returns the inherited junk
object; otherwise the first entry (in table-declaration order)
attaining the maximum similarity is returned when that maximum exceeds
the strict 0.8 threshold, and the no-match result otherwise; in
particular the lookup of xyzxyzxyz finds nothing. -/
theorem c6_lookup_characterization (name : String) :
    (∀ kv : String × DBEntry,
        ingredientDatabase.find? (fun kv' => kv'.1 == toLowerStr name) = some kv →
        findIngredientInDatabase name = DBMatch.entry kv.2)
    ∧ (ingredientDatabase.find? (fun kv' => kv'.1 == toLowerStr name) = none →
        protoChainKeys.contains (toLowerStr name) = true →
        findIngredientInDatabase name = DBMatch.protoObject)
    ∧ (ingredientDatabase.find? (fun kv' => kv'.1 == toLowerStr name) = none →
        protoChainKeys.contains (toLowerStr name) = false →
        findIngredientInDatabase name =
          match specFuzzyPick (toLowerStr name) with
          | some e => DBMatch.entry e
          | none => DBMatch.null)
    ∧ findIngredientInDatabase "xyzxyzxyz" = DBMatch.null := by
  refine ⟨?_, ?_, fuzzy_eq_specFuzzyPick name,
    of_decide_eq_true (by with_unfolding_all rfl)⟩
  · intro kv h
    rw [findIngredientInDatabase_eq, h]
  · intro hnone hp
    rw [findIngredientInDatabase_eq, hnone, if_pos hp]

/-- Witness for C6 (amended) at a concrete fuzzy lookup. -/
theorem c6_lookup_characterization_witness :
    findIngredientInDatabase "xyzxyzxyz" =
      match specFuzzyPick (toLowerStr "xyzxyzxyz") with
      | some e => DBMatch.entry e
      | none => DBMatch.null :=
  (c6_lookup_characterization "xyzxyzxyz").2.2.1 rfl rfl

/-- C8: the claim says analyzeIngredients returns one record per token
and has no unrecoverable error path (the only caller-visible edge case
being the empty input, which yields the empty sequence). The code
violates this: the token "constructor" is kept by the tokenizer, the
curated lookup hits the truthy Object-prototype junk object, and when
the remote lookup supplies no reasonForConcern the fallback expression
reads .concerns.join off that junk object, raising a TypeError that
nothing in analyzeIngredients catches - the whole call rejects instead
of returning records. Empty input still yields the empty sequence. -/
theorem c8_pipeline_throws_at_proto_token :
    analyzeIngredients (fun _ => RemoteOutcome.exnThrown) "constructor"
      = Except.error "TypeError: cannot read join of undefined"
    ∧ splitTokens "constructor" = ["constructor"]
    ∧ analyzeIngredients (fun _ => RemoteOutcome.exnThrown) "" = Except.ok [] :=
  ⟨rfl, rfl, rfl⟩

/-- C9: calculateStringSimilarity equals the normalized classic
Levenshtein similarity (maxLen minus distance, over maxLen) whenever
at least one operand is non-empty, is 1 on two empty strings, always
lies between 0 and 1, and is 1 on identical strings. -/
theorem c9_similarity_characterization :
    (∀ a b : String, a ≠ "" ∨ b ≠ "" →
        calculateStringSimilarity a b =
          (((max a.length b.length : Nat) : ℚ) - (levenshtein a.data b.data : ℚ))
            / ((max a.length b.length : Nat) : ℚ))
    ∧ calculateStringSimilarity "" "" = 1
    ∧ (∀ a b : String,
        0 ≤ calculateStringSimilarity a b ∧ calculateStringSimilarity a b ≤ 1)
    ∧ (∀ x : String, calculateStringSimilarity x x = 1) :=
  ⟨calculateStringSimilarity_formula, calculateStringSimilarity_empty,
   calculateStringSimilarity_bounds, calculateStringSimilarity_self⟩

/-- Witness for C9 at a concrete pair. -/
theorem c9_similarity_characterization_witness :
    ("abc" ≠ "" ∨ "ab" ≠ "")
    ∧ calculateStringSimilarity "abc" "ab" =
        (((max "abc".length "ab".length : Nat) : ℚ)
            - (levenshtein "abc".data "ab".data : ℚ))
          / ((max "abc".length "ab".length : Nat) : ℚ) :=
  ⟨Or.inl (by decide),
   c9_similarity_characterization.1 "abc" "ab" (Or.inl (by decide))⟩

end SafeScan
